import Mathlib

/-!
Shallow embedding of the PowerShell provisioner
(provisioner/powershell/provisioner.go).

External collaborators (the remote communicator, the filesystem, the
template engine, the UUID generator and the fmt format strings) are
modelled as oracle parameters.  Time is modelled in whole seconds: each
inter-attempt sleep advances the clock by retryableSleep = 2 seconds and
the attempts themselves take no model time, so the n-th attempt
(0-indexed) runs at time 2 * n and the deadline check that follows a
failed n-th attempt fires exactly when the configured timeout is at
most 2 * n.
-/

/-- Model of the package-level constant retryableSleep = 2 * time.Second,
in model seconds. -/
def retryableSleep : Nat := 2

/-- Embedding of Provisioner.retryable (provisioner.go:309-331).
The operation f is indexed by the attempt number; f n = none means the
n-th invocation returned a nil error.  The result is the pair
(number of invocations of f, final error): on success the error is none,
and on deadline expiry the error of the last invocation is returned
wrapped in the "Retryable error: " message built at line 318. -/
def retryable (timeout : Nat) (f : Nat → Option String) (n : Nat) : Nat × Option String :=
  match f n with
  | none => (n + 1, none)
  | some e =>
    if timeout ≤ retryableSleep * n then (n + 1, some ("Retryable error: " ++ e))
    else retryable timeout f (n + 1)
termination_by timeout - retryableSleep * n
decreasing_by simp only [retryableSleep] at *; omega

/-- C2: if every attempt fails, retryable still terminates: it performs
exactly (timeout + 1) / 2 + 1 attempts (one attempt every
retryableSleep = 2 seconds, plus the final attempt made when the deadline
has elapsed) and returns the last attempt's error wrapped as a
"Retryable error: " message, instead of looping forever. -/
theorem retry_timeout_terminates (timeout : Nat) (f : Nat → Option String) (e : Nat → String)
    (hf : ∀ n, f n = some (e n)) :
    retryable timeout f 0 = ((timeout + 1) / 2 + 1,
      some ("Retryable error: " ++ e ((timeout + 1) / 2))) := by
  have hstop : timeout ≤ retryableSleep * ((timeout + 1) / 2) := by
    simp only [retryableSleep]; omega
  have main : ∀ d j, (timeout + 1) / 2 - j ≤ d → j ≤ (timeout + 1) / 2 →
      retryable timeout f j = ((timeout + 1) / 2 + 1,
        some ("Retryable error: " ++ e ((timeout + 1) / 2))) := by
    intro d
    induction d with
    | zero =>
      intro j h1 h2
      have hj : j = (timeout + 1) / 2 := by omega
      subst hj
      rw [retryable, hf]
      simp [hstop]
    | succ d ih =>
      intro j h1 h2
      by_cases hj : j = (timeout + 1) / 2
      · subst hj
        rw [retryable, hf]
        simp [hstop]
      · have hlt : j < (timeout + 1) / 2 := by omega
        have hnot : ¬ timeout ≤ retryableSleep * j := by
          simp only [retryableSleep]; omega
        rw [retryable, hf]
        simp only [hnot, if_false]
        exact ih (j + 1) (by omega) (by omega)
  exact main ((timeout + 1) / 2) 0 (by omega) (by omega)

/-- Witness for C2: with a 5-second timeout and an operation that always
fails with "boom", retryable returns after 4 attempts with the wrapped
fatal error. -/
theorem retry_timeout_terminates_witness :
    retryable 5 (fun _ => some ("boom")) 0 =
      ((5 + 1) / 2 + 1, some ("Retryable error: " ++ "boom")) :=
  retry_timeout_terminates 5 (fun _ => some ("boom")) (fun _ => "boom") (fun _ => rfl)

/-- Characterisation of one run of retryable starting from attempt j:
strictly more than j invocations happen, all invocations but the last
failed before their deadline check fired, the run succeeds iff the last
invocation succeeded, and a failing last invocation means the deadline
had elapsed and its error is returned wrapped. -/
theorem retryable_spec_aux (timeout : Nat) (f : Nat → Option String) (j : Nat) :
    j < (retryable timeout f j).1
    ∧ (∀ m, j ≤ m → m + 1 < (retryable timeout f j).1 →
        f m ≠ none ∧ retryableSleep * m < timeout)
    ∧ ((retryable timeout f j).2 = none ↔ f ((retryable timeout f j).1 - 1) = none)
    ∧ (∀ e, f ((retryable timeout f j).1 - 1) = some e →
        (retryable timeout f j).2 = some ("Retryable error: " ++ e)
        ∧ timeout ≤ retryableSleep * ((retryable timeout f j).1 - 1)) := by
  have main : ∀ d j, timeout - retryableSleep * j ≤ d →
      j < (retryable timeout f j).1
      ∧ (∀ m, j ≤ m → m + 1 < (retryable timeout f j).1 →
          f m ≠ none ∧ retryableSleep * m < timeout)
      ∧ ((retryable timeout f j).2 = none ↔ f ((retryable timeout f j).1 - 1) = none)
      ∧ (∀ e, f ((retryable timeout f j).1 - 1) = some e →
          (retryable timeout f j).2 = some ("Retryable error: " ++ e)
          ∧ timeout ≤ retryableSleep * ((retryable timeout f j).1 - 1)) := by
    intro d
    induction d with
    | zero =>
      intro j hd
      have hstop : timeout ≤ retryableSleep * j := by omega
      rcases hfj : f j with _ | e
      · rw [retryable, hfj]
        dsimp only
        refine ⟨by omega, ?_, ?_, ?_⟩
        · intro m h1 h2; omega
        · simpa using hfj
        · intro e he; simp at he; rw [hfj] at he; exact absurd he (by simp)
      · rw [retryable, hfj]
        simp only [hstop, if_true]
        refine ⟨by omega, ?_, ?_, ?_⟩
        · intro m h1 h2; omega
        · simp [hfj]
        · intro e' he'
          simp only [Nat.add_sub_cancel] at he'
          rw [hfj] at he'
          cases he'
          exact ⟨rfl, hstop⟩
    | succ d ih =>
      intro j hd
      rcases hfj : f j with _ | e
      · rw [retryable, hfj]
        dsimp only
        refine ⟨by omega, ?_, ?_, ?_⟩
        · intro m h1 h2; omega
        · simpa using hfj
        · intro e he; simp only [Nat.add_sub_cancel] at he; rw [hfj] at he
          exact absurd he (by simp)
      · by_cases hstop : timeout ≤ retryableSleep * j
        · rw [retryable, hfj]
          simp only [hstop, if_true]
          refine ⟨by omega, ?_, ?_, ?_⟩
          · intro m h1 h2; omega
          · simp [hfj]
          · intro e' he'
            simp only [Nat.add_sub_cancel] at he'
            rw [hfj] at he'
            cases he'
            exact ⟨rfl, hstop⟩
        · have hrec := ih (j + 1) (by simp only [retryableSleep] at *; omega)
          rw [retryable, hfj]
          simp only [hstop, if_false]
          obtain ⟨h1, h2, h3, h4⟩ := hrec
          refine ⟨by omega, ?_, h3, h4⟩
          intro m hm1 hm2
          rcases Nat.eq_or_lt_of_le hm1 with hm | hm
          · subst hm
            exact ⟨by simp [hfj], by omega⟩
          · exact h2 m (by omega) hm2
  exact main (timeout - retryableSleep * j) j (by omega)

/-- C10: contract of retryable.  For every operation f and every
timeout, even one already elapsed, at least one invocation happens
before any deadline check; every invocation but the last failed before
its deadline fired (so the loop stops at the first success); the call
returns nil iff the last (hence some) invocation returned nil; and a
failing run returns the last invocation's error wrapped as a
"Retryable error: " message, with the deadline necessarily elapsed. -/
theorem retryable_contract (timeout : Nat) (f : Nat → Option String) :
    1 ≤ (retryable timeout f 0).1
    ∧ (∀ m, m + 1 < (retryable timeout f 0).1 →
        f m ≠ none ∧ retryableSleep * m < timeout)
    ∧ ((retryable timeout f 0).2 = none ↔ f ((retryable timeout f 0).1 - 1) = none)
    ∧ (∀ e, f ((retryable timeout f 0).1 - 1) = some e →
        (retryable timeout f 0).2 = some ("Retryable error: " ++ e)
        ∧ timeout ≤ retryableSleep * ((retryable timeout f 0).1 - 1)) := by
  obtain ⟨h1, h2, h3, h4⟩ := retryable_spec_aux timeout f 0
  exact ⟨h1, fun m hm => h2 m (Nat.zero_le m) hm, h3, h4⟩

/-- Oracle behaviour of one script iteration of Provision
(provisioner.go:245-296).  openErr models os.Open at line 249, cmdErr
models createCommandText at line 255, and seek, upload and start model
the three steps of the closure passed to retryable at lines 266-276,
indexed by the attempt number.  exitStatus models cmd.ExitStatus. -/
structure ScriptBehavior where
  openErr : Option String
  cmdErr : Option String
  seek : Nat → Option String
  upload : Nat → Option String
  start : Nat → Option String
  exitStatus : Int

/-- One run of the closure passed to retryable (provisioner.go:266-276),
together with which of its calls actually happened: the first component
records whether comm.Upload was called and the second whether
cmd.StartWithUi was called; the third is the closure's returned error.
Upload is only reached when the Seek succeeded, and the start only when
the upload also succeeded, whose error is wrapped as at line 271. -/
def attemptTrace (b : ScriptBehavior) (n : Nat) : Bool × Bool × Option String :=
  match b.seek n with
  | some e => (false, false, some e)
  | none =>
    match b.upload n with
    | some e => (true, false, some ("Error uploading script: " ++ e))
    | none => (true, true, b.start n)

/-- The error result of the n-th attempt of the retried closure. -/
def attemptOnce (b : ScriptBehavior) (n : Nat) : Option String :=
  (attemptTrace b n).2.2

/-- Number of comm.Upload calls performed during the first a attempts. -/
def uploadsIn (b : ScriptBehavior) (a : Nat) : Nat :=
  ((List.range a).filter (fun n => (attemptTrace b n).1)).length

/-- Number of cmd.StartWithUi calls performed during the first a attempts. -/
def startsIn (b : ScriptBehavior) (a : Nat) : Nat :=
  ((List.range a).filter (fun n => (attemptTrace b n).2.1)).length

/-- C1: per-script retry behaviour of Provision.  If on every attempt up
to the k-th the seek and the upload succeed, the remote start fails on
the first k attempts and succeeds on attempt k (0-indexed), and no
deadline check before attempt k fires, then the retry loop ends
successfully after exactly k + 1 invocations of the closure, having
performed exactly k + 1 uploads and k + 1 start attempts — one upload
per start attempt, each retry re-uploading the script.  (The command
text itself is rendered once, before the loop: see runScript below,
where cmdErr is inspected outside retryable.) -/
theorem provision_retry_success_counts (timeout k : Nat) (b : ScriptBehavior)
    (hseek : ∀ n, n ≤ k → b.seek n = none)
    (hupload : ∀ n, n ≤ k → b.upload n = none)
    (hstart : ∀ n, n < k → b.start n ≠ none)
    (hk : b.start k = none)
    (htime : ∀ n, n < k → retryableSleep * n < timeout) :
    retryable timeout (attemptOnce b) 0 = (k + 1, none)
    ∧ uploadsIn b (k + 1) = k + 1
    ∧ startsIn b (k + 1) = k + 1 := by
  have htr : ∀ n, n ≤ k → attemptTrace b n = (true, true, b.start n) := by
    intro n hn
    unfold attemptTrace
    rw [hseek n hn, hupload n hn]
  have hone : ∀ n, n ≤ k → attemptOnce b n = b.start n := by
    intro n hn
    unfold attemptOnce
    rw [htr n hn]
  have hret : ∀ d j, k - j ≤ d → j ≤ k →
      retryable timeout (attemptOnce b) j = (k + 1, none) := by
    intro d
    induction d with
    | zero =>
      intro j h1 h2
      have hj : j = k := by omega
      subst hj
      rw [retryable, hone j (by omega), hk]
    | succ d ih =>
      intro j h1 h2
      by_cases hj : j = k
      · subst hj
        rw [retryable, hone j (by omega), hk]
      · have hlt : j < k := by omega
        obtain ⟨e, he⟩ := Option.ne_none_iff_exists'.mp (hstart j hlt)
        rw [retryable, hone j (by omega), he]
        have hnot : ¬ timeout ≤ retryableSleep * j := by
          have := htime j hlt; omega
        simp only [hnot, if_false]
        exact ih (j + 1) (by omega) (by omega)
  refine ⟨hret k 0 (by omega) (by omega), ?_, ?_⟩
  · unfold uploadsIn
    have : ∀ n ∈ List.range (k + 1), (fun n => (attemptTrace b n).1) n = true := by
      intro n hn
      show (attemptTrace b n).1 = true
      rw [htr n (by simpa [Nat.lt_succ_iff] using List.mem_range.mp hn)]
    rw [List.filter_eq_self.mpr this, List.length_range]
  · unfold startsIn
    have : ∀ n ∈ List.range (k + 1), (fun n => (attemptTrace b n).2.1) n = true := by
      intro n hn
      show (attemptTrace b n).2.1 = true
      rw [htr n (by simpa [Nat.lt_succ_iff] using List.mem_range.mp hn)]
    rw [List.filter_eq_self.mpr this, List.length_range]

/-- Concrete behaviour for the C1 witness: seek and upload always
succeed, the remote start fails on the first two attempts and succeeds
on the third; exit status 0. -/
def succeedsThird : ScriptBehavior where
  openErr := none
  cmdErr := none
  seek := fun _ => none
  upload := fun _ => none
  start := fun n => if n < 2 then some ("start failure") else none
  exitStatus := 0

/-- Witness for C1: with a 10-second retry timeout and a start that
succeeds on the 3rd attempt, the loop succeeds with exactly 3 closure
invocations, 3 uploads and 3 start attempts. -/
theorem provision_retry_success_counts_witness :
    retryable 10 (attemptOnce succeedsThird) 0 = (3, none)
    ∧ uploadsIn succeedsThird 3 = 3
    ∧ startsIn succeedsThird 3 = 3 :=
  provision_retry_success_counts 10 2 succeedsThird
    (fun _ _ => rfl) (fun _ _ => rfl)
    (by decide) (by decide) (by decide)

/-- Embedding of the exit-code check of Provision (provisioner.go:285-290):
a plain flag-setting loop over ValidExitCodes, equivalent to membership. -/
def validExitCode (codes : List Int) (status : Int) : Bool :=
  codes.foldl (fun acc v => acc || (status == v)) false

/-- Rendering of a Go []int by fmt's %v verb, as used in the error
message at provisioner.go:292-294: elements space-separated in square
brackets. -/
def goIntList (codes : List Int) : String :=
  "[" ++ String.intercalate (" ") (codes.map toString) ++ "]"

/-- Embedding of one iteration of the script loop of Provision
(provisioner.go:245-296): open the script (fatal on failure), render the
command text once (fatal on failure), run the upload+start triple under
retryable, then test the exit status against the configured codes and
fail with the message of line 292 if it is not a member. -/
def runScript (codes : List Int) (timeout : Nat) (b : ScriptBehavior) : Option String :=
  match b.openErr with
  | some e => some ("Error opening powershell script: " ++ e)
  | none =>
    match b.cmdErr with
    | some e => some ("Error processing command: " ++ e)
    | none =>
      match (retryable timeout (attemptOnce b) 0).2 with
      | some e => some e
      | none =>
        if validExitCode codes b.exitStatus then none
        else some ("Script exited with non-zero exit status: " ++ toString b.exitStatus
          ++ ". Allowed exit codes are: " ++ goIntList codes)

/-- Embedding of the script loop of Provision (provisioner.go:245-296):
scripts are processed in list order, the first failure is returned
immediately, and the first component counts how many scripts were
entered (opened / uploaded / started) at all. -/
def runScripts (codes : List Int) (timeout : Nat) : List ScriptBehavior → Nat × Option String
  | [] => (0, none)
  | b :: rest =>
    match runScript codes timeout b with
    | some e => (1, some e)
    | none =>
      let r := runScripts codes timeout rest
      (r.1 + 1, r.2)

/-- C3: scripts run strictly sequentially.  If every script before b
succeeds (its command started and reported a valid exit status) and b
fails with error e, then Provision returns e immediately and the number
of scripts entered is exactly the position of b plus one: no script
after b is opened, uploaded or started, whatever its behaviour. -/
theorem scripts_strictly_sequential (codes : List Int) (timeout : Nat)
    (pre post : List ScriptBehavior) (b : ScriptBehavior) (e : String)
    (hpre : ∀ x ∈ pre, runScript codes timeout x = none)
    (hb : runScript codes timeout b = some e) :
    runScripts codes timeout (pre ++ b :: post) = (pre.length + 1, some e) := by
  induction pre with
  | nil =>
    simp only [List.nil_append, List.length_nil]
    rw [runScripts, hb]
  | cons x xs ih =>
    have hx : runScript codes timeout x = none := hpre x (by simp)
    have hxs := ih (fun y hy => hpre y (by simp [hy]))
    simp only [List.cons_append, List.length_cons]
    rw [runScripts, hx]
    simp only [hxs]

/-- Script behaviour that succeeds outright: everything works on the
first attempt and the exit status is 0. -/
def cleanScript : ScriptBehavior where
  openErr := none
  cmdErr := none
  seek := fun _ => none
  upload := fun _ => none
  start := fun _ => none
  exitStatus := 0

/-- Script behaviour whose local file cannot be opened. -/
def unopenableScript : ScriptBehavior where
  openErr := some ("no such file")
  cmdErr := none
  seek := fun _ => none
  upload := fun _ => none
  start := fun _ => none
  exitStatus := 0

/-- Witness for C3: with a clean first script, a failing second script
and a third script behind them, Provision stops after entering exactly
two scripts and returns the second script's error; the third script is
never touched. -/
theorem scripts_strictly_sequential_witness :
    runScripts [0] 60 [cleanScript, unopenableScript, cleanScript] =
      (2, some ("Error opening powershell script: no such file")) := by
  have h := scripts_strictly_sequential [0] 60 [cleanScript] [cleanScript]
    unopenableScript ("Error opening powershell script: " ++ "no such file")
    (by
      intro x hx
      simp only [List.mem_singleton] at hx
      subst hx
      rw [runScript]
      rw [retryable]
      rfl)
    (by rw [runScript]; rfl)
  simpa using h

/-- The flag-setting loop over ValidExitCodes computes exactly list
membership of the reported exit status. -/
theorem validExitCode_iff_mem (codes : List Int) (status : Int) :
    validExitCode codes status = true ↔ status ∈ codes := by
  have hfold : ∀ (l : List Int) (acc : Bool),
      l.foldl (fun a v => a || (status == v)) acc
        = (acc || l.any (fun v => status == v)) := by
    intro l
    induction l with
    | nil => intro acc; simp
    | cons v vs ih =>
      intro acc
      simp only [List.foldl_cons, List.any_cons, ih, Bool.or_assoc]
  unfold validExitCode
  rw [hfold]
  simp

/-- C4: once a script's command has started, its exit status is accepted
iff it belongs to the configured valid-exit-code set, and a status
outside the set makes the script fail with the message naming both the
actual status and the allowed set. -/
theorem exit_code_membership (codes : List Int) (timeout : Nat) (b : ScriptBehavior)
    (ho : b.openErr = none) (hc : b.cmdErr = none)
    (hstart : attemptOnce b 0 = none) :
    (runScript codes timeout b = none ↔ b.exitStatus ∈ codes)
    ∧ (validExitCode codes b.exitStatus = true ↔ b.exitStatus ∈ codes)
    ∧ (b.exitStatus ∉ codes →
        runScript codes timeout b =
          some ("Script exited with non-zero exit status: " ++ toString b.exitStatus
            ++ ". Allowed exit codes are: " ++ goIntList codes)) := by
  have hret : retryable timeout (attemptOnce b) 0 = (1, none) := by
    rw [retryable, hstart]
  have hrun : runScript codes timeout b =
      (if validExitCode codes b.exitStatus then none
        else some ("Script exited with non-zero exit status: " ++ toString b.exitStatus
          ++ ". Allowed exit codes are: " ++ goIntList codes)) := by
    rw [runScript, ho, hc, hret]
  refine ⟨?_, validExitCode_iff_mem codes b.exitStatus, ?_⟩
  · rw [hrun]
    by_cases hv : validExitCode codes b.exitStatus = true
    · simp only [hv, if_true]
      simp [validExitCode_iff_mem codes b.exitStatus] at hv
      simp [hv]
    · simp only [Bool.not_eq_true] at hv
      simp only [hv, Bool.false_eq_true, if_false]
      have hmem : b.exitStatus ∉ codes := by
        intro hm
        have hvt := (validExitCode_iff_mem codes b.exitStatus).mpr hm
        rw [hvt] at hv
        cases hv
      simp [hmem]
  · intro hmem
    have hv : validExitCode codes b.exitStatus = false := by
      rw [Bool.eq_false_iff]
      intro hcontra
      exact hmem ((validExitCode_iff_mem codes b.exitStatus).mp hcontra)
    rw [hrun, hv]
    simp

/-- Behaviour of a script that starts cleanly and exits with 3010. -/
def exitCode3010 : ScriptBehavior where
  openErr := none
  cmdErr := none
  seek := fun _ => none
  upload := fun _ => none
  start := fun _ => none
  exitStatus := 3010

/-- Behaviour of a script that starts cleanly and exits with 1. -/
def exitCode1 : ScriptBehavior where
  openErr := none
  cmdErr := none
  seek := fun _ => none
  upload := fun _ => none
  start := fun _ => none
  exitStatus := 1

/-- Witness for C4: with valid_exit_codes = \x7b0, 3010\x7d an exit
status of 3010 succeeds, while an exit status of 1 fails with the
message naming the code 1 and the allowed set. -/
theorem exit_code_membership_witness :
    runScript [0, 3010] 60 exitCode3010 = none
    ∧ runScript [0, 3010] 60 exitCode1 =
        some ("Script exited with non-zero exit status: 1. Allowed exit codes are: [0 3010]") := by
  constructor
  · exact (exit_code_membership [0, 3010] 60 exitCode3010 rfl rfl rfl).1.mpr (by decide)
  · have h := (exit_code_membership [0, 3010] 60 exitCode1 rfl rfl rfl).2.2 (by decide)
    rw [h]
    rfl

/-- Go map assignment m[k] = v on an association-list model of the map
built in createFlattenedEnvVars (provisioner.go:335-349): replace the
value when the key is present, otherwise add a new binding.  Keys stay
unique, as in a Go map. -/
def upsert (m : List (String × String)) (k v : String) : List (String × String) :=
  if m.any (fun p => decide (p.1 = k)) then
    m.map (fun p => if p.1 = k then (k, v) else p)
  else m ++ [(k, v)]

/-- Go map read m[a] on the association-list model. -/
def lookupKV : List (String × String) → String → Option String
  | [], _ => none
  | p :: ps, a => if p.1 = a then some p.2 else lookupKV ps a

/-- Looking up a key whose binding was just replaced yields the new
value, provided the key was present. -/
theorem lookupKV_map_replace_self (m : List (String × String)) (k v : String)
    (hm : m.any (fun p => decide (p.1 = k)) = true) :
    lookupKV (m.map (fun q => if q.1 = k then (k, v) else q)) k = some v := by
  induction m with
  | nil => simp at hm
  | cons q qs ih =>
    by_cases hq : q.1 = k
    · subst hq
      simp [lookupKV]
    · have hqs : qs.any (fun p => decide (p.1 = k)) = true := by
        simpa [List.any_cons, hq] using hm
      simp [lookupKV, hq, ih hqs]

/-- Replacing the binding of key k does not change the lookup of any
other key. -/
theorem lookupKV_map_replace (m : List (String × String)) (k v a : String) (h : ¬ a = k) :
    lookupKV (m.map (fun q => if q.1 = k then (k, v) else q)) a = lookupKV m a := by
  induction m with
  | nil => rfl
  | cons q qs ih =>
    by_cases hq : q.1 = k
    · subst hq
      have hqa : ¬ q.1 = a := fun hh => h hh.symm
      simp [lookupKV, hqa, ih]
    · by_cases hqa : q.1 = a <;> simp [lookupKV, hq, hqa, ih, h]

/-- Lookup over an appended association list: the left part wins. -/
theorem lookupKV_append (l₁ l₂ : List (String × String)) (a : String) :
    lookupKV (l₁ ++ l₂) a =
      match lookupKV l₁ a with
      | some w => some w
      | none => lookupKV l₂ a := by
  induction l₁ with
  | nil => rfl
  | cons p ps ih =>
    by_cases hp : p.1 = a <;> simp [lookupKV, hp, ih]

/-- A key bound nowhere in the list looks up to none. -/
theorem lookupKV_eq_none_of_not_any (m : List (String × String)) (k : String)
    (hm : ¬ m.any (fun p => decide (p.1 = k)) = true) :
    lookupKV m k = none := by
  induction m with
  | nil => rfl
  | cons p ps ih =>
    simp only [List.any_cons, Bool.or_eq_true, decide_eq_true_eq, not_or] at hm
    simp [lookupKV, hm.1, ih (by simpa using hm.2)]

/-- Characterisation of lookup after a Go map assignment. -/
theorem lookupKV_upsert (m : List (String × String)) (k v a : String) :
    lookupKV (upsert m k v) a = if a = k then some v else lookupKV m a := by
  by_cases hm : m.any (fun p => decide (p.1 = k)) = true
  · rw [upsert, if_pos hm]
    by_cases ha : a = k
    · subst ha
      rw [if_pos rfl, lookupKV_map_replace_self m a v hm]
    · rw [if_neg ha, lookupKV_map_replace m k v a ha]
  · rw [upsert, if_neg hm, lookupKV_append]
    by_cases ha : a = k
    · subst ha
      rw [lookupKV_eq_none_of_not_any m a hm]
      simp [lookupKV]
    · have h2 : ¬ k = a := fun hh => ha hh.symm
      rw [if_neg ha]
      cases hl : lookupKV m a <;> simp [hl, lookupKV, h2]

/-- The key sequence of a Go map assignment: unchanged when the key was
present, extended by the new key otherwise. -/
theorem keys_upsert (m : List (String × String)) (k v : String) :
    (upsert m k v).map Prod.fst =
      if m.any (fun p => decide (p.1 = k)) = true then m.map Prod.fst
      else m.map Prod.fst ++ [k] := by
  by_cases hm : m.any (fun p => decide (p.1 = k)) = true
  · rw [upsert, if_pos hm, if_pos hm, List.map_map]
    apply List.map_congr_left
    intro p _
    by_cases hpk : p.1 = k <;> simp [Function.comp, hpk]
  · rw [upsert, if_neg hm, if_neg hm, List.map_append]
    rfl

/-- After m[k] = v, the key k is bound. -/
theorem self_mem_keys_upsert (m : List (String × String)) (k v : String) :
    k ∈ (upsert m k v).map Prod.fst := by
  rw [keys_upsert]
  by_cases hm : m.any (fun p => decide (p.1 = k)) = true
  · rw [if_pos hm]
    obtain ⟨p, hpmem, hpk⟩ := List.any_eq_true.mp hm
    have hpk : p.1 = k := of_decide_eq_true hpk
    exact hpk ▸ List.mem_map_of_mem Prod.fst hpmem
  · rw [if_neg hm]
    exact List.mem_append_right _ (List.mem_singleton_self k)

/-- A map assignment never removes a key. -/
theorem mem_keys_upsert_of_mem (m : List (String × String)) (k v a : String)
    (ha : a ∈ m.map Prod.fst) :
    a ∈ (upsert m k v).map Prod.fst := by
  rw [keys_upsert]
  by_cases hm : m.any (fun p => decide (p.1 = k)) = true
  · rw [if_pos hm]; exact ha
  · rw [if_neg hm]; exact List.mem_append_left _ ha

/-- A map assignment keeps the keys pairwise distinct. -/
theorem nodup_keys_upsert (m : List (String × String)) (k v : String)
    (h : (m.map Prod.fst).Nodup) :
    ((upsert m k v).map Prod.fst).Nodup := by
  rw [keys_upsert]
  by_cases hm : m.any (fun p => decide (p.1 = k)) = true
  · rw [if_pos hm]; exact h
  · rw [if_neg hm]
    have hk : k ∉ m.map Prod.fst := by
      intro hmem
      obtain ⟨p, hp, hfst⟩ := List.mem_map.mp hmem
      exact hm (List.any_eq_true.mpr ⟨p, hp, by simp [hfst]⟩)
    exact List.Nodup.append h (List.nodup_singleton k)
      (by simpa [List.disjoint_singleton] using hk)

/-- Overlaying a sequence of user assignments: the last user assignment
of a key wins, and keys absent from the user list keep their base
binding. -/
theorem lookupKV_foldl_upsert (vars : List (String × String))
    (base : List (String × String)) (a : String) :
    lookupKV (vars.foldl (fun m p => upsert m p.1 p.2) base) a =
      match lookupKV vars.reverse a with
      | some w => some w
      | none => lookupKV base a := by
  induction vars generalizing base with
  | nil => rfl
  | cons p ps ih =>
    rw [List.foldl_cons, ih, List.reverse_cons, lookupKV_append]
    cases hl : lookupKV ps.reverse a <;> simp only [hl]
    · rw [lookupKV_upsert]
      by_cases hpa : a = p.1
      · simp [lookupKV, hpa]
      · have h2 : ¬ p.1 = a := fun hh => hpa hh.symm
        simp [lookupKV, hpa, h2]

/-- Overlaying user assignments never removes a key. -/
theorem mem_keys_foldl_upsert (vars : List (String × String))
    (base : List (String × String)) (a : String)
    (ha : a ∈ base.map Prod.fst) :
    a ∈ ((vars.foldl (fun m p => upsert m p.1 p.2) base).map Prod.fst) := by
  induction vars generalizing base with
  | nil => exact ha
  | cons p ps ih => exact ih _ (mem_keys_upsert_of_mem _ _ _ _ ha)

/-- Overlaying user assignments keeps the keys pairwise distinct. -/
theorem nodup_keys_foldl_upsert (vars : List (String × String))
    (base : List (String × String))
    (h : (base.map Prod.fst).Nodup) :
    ((vars.foldl (fun m p => upsert m p.1 p.2) base).map Prod.fst).Nodup := by
  induction vars generalizing base with
  | nil => exact h
  | cons p ps ih => exact ih _ (nodup_keys_upsert _ _ _ h)

/-- The merged environment map of createFlattenedEnvVars
(provisioner.go:335-349): the reserved build-identity variables are
assigned first (PACKER_HTTP_ADDR only when the surrounding environment
exposes a non-empty HTTP address), then the user variables — already
split at their first equals sign into (key, value) pairs, as SplitN
does at line 347 — are assigned over them in list order, the user value
replacing a reserved one on key collision and a later duplicate
replacing an earlier one. -/
def envVarMap (buildName builderType httpAddr : String)
    (vars : List (String × String)) : List (String × String) :=
  let base0 := upsert [] ("PACKER_BUILD_NAME") buildName
  let base1 := upsert base0 ("PACKER_BUILDER_TYPE") builderType
  let base2 := if httpAddr = "" then base1 else upsert base1 ("PACKER_HTTP_ADDR") httpAddr
  vars.foldl (fun m p => upsert m p.1 p.2) base2

/-- Model of Go's sort.Strings (provisioner.go:356): the key list in
ascending lexicographic order.  Any correct sort yields this list, so
insertion sort stands in for Go's sort. -/
def sortStrings (l : List String) : List String :=
  List.insertionSort (fun a b => a ≤ b) l

/-- The key sequence in which createFlattenedEnvVars renders the merged
variables (provisioner.go:352-356). -/
def envVarKeys (buildName builderType httpAddr : String)
    (vars : List (String × String)) : List String :=
  sortStrings ((envVarMap buildName builderType httpAddr vars).map Prod.fst)

/-- Embedding of createFlattenedEnvVars (provisioner.go:333-367).  The
two fmt.Sprintf format strings are modelled as oracle functions from
key and value to the formatted entry; the elevated flag picks the
elevated one, exactly as lines 357-360 do; the formatted entries are
concatenated over the sorted keys with no separator (line 363-365). -/
def createFlattenedEnvVars (envVarFmt elevatedEnvVarFmt : String → String → String)
    (elevated : Bool) (buildName builderType httpAddr : String)
    (vars : List (String × String)) : String :=
  let m := envVarMap buildName builderType httpAddr vars
  let keys := envVarKeys buildName builderType httpAddr vars
  let fmtEntry := if elevated then elevatedEnvVarFmt else envVarFmt
  String.join (keys.map (fun k => fmtEntry k ((lookupKV m k).getD (""))))

/-- The keys of the merged environment map are pairwise distinct. -/
theorem nodup_envVarMap_keys (buildName builderType httpAddr : String)
    (vars : List (String × String)) :
    ((envVarMap buildName builderType httpAddr vars).map Prod.fst).Nodup := by
  unfold envVarMap
  apply nodup_keys_foldl_upsert
  by_cases hh : httpAddr = ""
  · rw [if_pos hh]
    exact nodup_keys_upsert _ _ _ (nodup_keys_upsert _ _ _ (by simp))
  · rw [if_neg hh]
    exact nodup_keys_upsert _ _ _
      (nodup_keys_upsert _ _ _ (nodup_keys_upsert _ _ _ (by simp)))

/-- C5: for every user variable list (in any order) and either elevation
flag, createFlattenedEnvVars renders the merged variables over the key
sequence envVarKeys, which is strictly ascending in lexicographic order
and contains exactly the keys of the merged map; one formatted entry per
key, concatenated with no separator beyond what the format supplies. -/
theorem flattened_env_vars_sorted (envVarFmt elevatedEnvVarFmt : String → String → String)
    (elevated : Bool) (buildName builderType httpAddr : String)
    (vars : List (String × String)) :
    List.Pairwise (fun a b => a < b)
      (envVarKeys buildName builderType httpAddr vars)
    ∧ (∀ a, a ∈ envVarKeys buildName builderType httpAddr vars ↔
        a ∈ (envVarMap buildName builderType httpAddr vars).map Prod.fst)
    ∧ createFlattenedEnvVars envVarFmt elevatedEnvVarFmt elevated
        buildName builderType httpAddr vars =
      String.join ((envVarKeys buildName builderType httpAddr vars).map
        (fun k => (if elevated then elevatedEnvVarFmt else envVarFmt) k
          ((lookupKV (envVarMap buildName builderType httpAddr vars) k).getD ("")))) := by
  have hperm := List.perm_insertionSort (fun a b : String => a ≤ b)
    ((envVarMap buildName builderType httpAddr vars).map Prod.fst)
  have hsorted : List.Sorted (fun a b : String => a ≤ b)
      (envVarKeys buildName builderType httpAddr vars) :=
    List.sorted_insertionSort (fun a b : String => a ≤ b) _
  have hnodup : (envVarKeys buildName builderType httpAddr vars).Nodup :=
    hperm.nodup_iff.mpr (nodup_envVarMap_keys buildName builderType httpAddr vars)
  refine ⟨?_, fun a => hperm.mem_iff, rfl⟩
  exact (List.Pairwise.and hsorted hnodup).imp
    (fun h => lt_of_le_of_ne h.1 h.2)

/-- C6: the merged environment map always binds the reserved
build-identity keys — PACKER_BUILD_NAME, PACKER_BUILDER_TYPE, and
PACKER_HTTP_ADDR whenever a non-empty HTTP address is exposed — and a
user variable of the same key overrides the reserved value: any key the
user list assigns maps to its last user-assigned value, while a reserved
key the user list never assigns keeps its reserved value. -/
theorem reserved_env_vars_present_overridable (buildName builderType httpAddr : String)
    (vars : List (String × String)) :
    ("PACKER_BUILD_NAME" ∈ (envVarMap buildName builderType httpAddr vars).map Prod.fst)
    ∧ ("PACKER_BUILDER_TYPE" ∈ (envVarMap buildName builderType httpAddr vars).map Prod.fst)
    ∧ (¬ httpAddr = "" →
        "PACKER_HTTP_ADDR" ∈ (envVarMap buildName builderType httpAddr vars).map Prod.fst)
    ∧ (∀ k v, lookupKV vars.reverse k = some v →
        lookupKV (envVarMap buildName builderType httpAddr vars) k = some v)
    ∧ (lookupKV vars.reverse ("PACKER_BUILD_NAME") = none →
        lookupKV (envVarMap buildName builderType httpAddr vars) ("PACKER_BUILD_NAME")
          = some buildName)
    ∧ (lookupKV vars.reverse ("PACKER_BUILDER_TYPE") = none →
        lookupKV (envVarMap buildName builderType httpAddr vars) ("PACKER_BUILDER_TYPE")
          = some builderType)
    ∧ (¬ httpAddr = "" → lookupKV vars.reverse ("PACKER_HTTP_ADDR") = none →
        lookupKV (envVarMap buildName builderType httpAddr vars) ("PACKER_HTTP_ADDR")
          = some httpAddr) := by
  unfold envVarMap
  refine ⟨?_, ?_, ?_, ?_, ?_, ?_, ?_⟩
  · apply mem_keys_foldl_upsert
    by_cases hh : httpAddr = ""
    · rw [if_pos hh]
      exact mem_keys_upsert_of_mem _ _ _ _ (self_mem_keys_upsert _ _ _)
    · rw [if_neg hh]
      exact mem_keys_upsert_of_mem _ _ _ _
        (mem_keys_upsert_of_mem _ _ _ _ (self_mem_keys_upsert _ _ _))
  · apply mem_keys_foldl_upsert
    by_cases hh : httpAddr = ""
    · rw [if_pos hh]
      exact self_mem_keys_upsert _ _ _
    · rw [if_neg hh]
      exact mem_keys_upsert_of_mem _ _ _ _ (self_mem_keys_upsert _ _ _)
  · intro hh
    apply mem_keys_foldl_upsert
    rw [if_neg hh]
    exact self_mem_keys_upsert _ _ _
  · intro k v hk
    rw [lookupKV_foldl_upsert, hk]
  · intro hnone
    rw [lookupKV_foldl_upsert, hnone]
    by_cases hh : httpAddr = ""
    · rw [if_pos hh]
      rw [lookupKV_upsert, if_neg (by decide), lookupKV_upsert, if_pos rfl]
    · rw [if_neg hh, lookupKV_upsert, if_neg (by decide),
        lookupKV_upsert, if_neg (by decide), lookupKV_upsert, if_pos rfl]
  · intro hnone
    rw [lookupKV_foldl_upsert, hnone]
    by_cases hh : httpAddr = ""
    · rw [if_pos hh]
      rw [lookupKV_upsert, if_pos rfl]
    · rw [if_neg hh, lookupKV_upsert, if_neg (by decide),
        lookupKV_upsert, if_pos rfl]
  · intro hh hnone
    rw [lookupKV_foldl_upsert, hnone, if_neg hh, lookupKV_upsert, if_pos rfl]

/-- The well-formedness test applied to each environment_vars entry in
Prepare (provisioner.go:191-197): strings.SplitN(kv, "=", 2) must yield
two components (some equals sign present) with a non-empty key. -/
def validEnvVarFormat (kv : String) : Bool :=
  match kv.splitOn ("=") with
  | k :: _ :: _ => decide (¬ k = "")
  | _ => false

/-- Embedding of the validation part of Prepare (provisioner.go:130-201),
in source order.  inline is the Inline slice (none models nil, and an
empty non-nil slice is normalised to nil first, as at lines 130-132);
statErr models os.Stat, returning the stat error for an inaccessible
path.  Every problem found is appended to one growing list, never
returned early; note that the single-script field is folded into the
scripts list (line 171-173) after the script/scripts conflict check but
before the inline conflict check and the stat loop. -/
def prepareValidate (script : String) (scripts : List String)
    (inline : Option (List String)) (elevatedUser elevatedPassword : String)
    (vars : List String) (statErr : String → Option String) : List String :=
  let inl : Option (List String) :=
    match inline with
    | some [] => none
    | i => i
  let errs1 := if ¬ script = "" ∧ 0 < scripts.length then
      ["Only one of script or scripts can be specified."] else []
  let errs2 := errs1 ++ (if ¬ elevatedUser = "" ∧ elevatedPassword = "" then
      ["Must supply an \x27elevated_password\x27 if \x27elevated_user\x27 provided"] else [])
  let errs3 := errs2 ++ (if elevatedUser = "" ∧ ¬ elevatedPassword = "" then
      ["Must supply an \x27elevated_user\x27 if \x27elevated_password\x27 provided"] else [])
  let scripts2 := if ¬ script = "" then [script] else scripts
  let errs4 := errs3 ++
    (if scripts2.length = 0 ∧ inl = none then
      ["Either a script file or inline script must be specified."]
    else if 0 < scripts2.length ∧ ¬ inl = none then
      ["Only a script file or an inline script can be specified, not both."]
    else [])
  let errs5 := errs4 ++ scripts2.filterMap (fun path =>
    (statErr path).map (fun e => "Bad script \x27" ++ path ++ "\x27: " ++ e))
  errs5 ++ vars.filterMap (fun kv =>
    if validEnvVarFormat kv then none
    else some ("Environment variable not in format \x27key=value\x27: " ++ kv))

/-- Embedding of Prepare's result (provisioner.go:199-203): the
collected problems are returned together as one aggregate, or success
when none were found. -/
def prepare (script : String) (scripts : List String)
    (inline : Option (List String)) (elevatedUser elevatedPassword : String)
    (vars : List String) (statErr : String → Option String) : Option (List String) :=
  let errs := prepareValidate script scripts inline elevatedUser elevatedPassword vars statErr
  if errs.isEmpty then none else some errs

/-- C7: Prepare collects every configuration problem and returns them as
one aggregate instead of failing fast.  When the script/scripts conflict
and the inline-versus-file-script conflict occur simultaneously the
aggregate mentions both; a set elevated_user without elevated_password
(and vice versa) contributes its specific message naming the missing
field; and the returned aggregate is exactly the full collected list. -/
theorem prepare_collects_all_errors (script : String) (scripts : List String)
    (inline : Option (List String)) (elevatedUser elevatedPassword : String)
    (vars : List String) (statErr : String → Option String) :
    ((¬ script = "" ∧ 0 < scripts.length ∧ (∃ c cs, inline = some (c :: cs))) →
      "Only one of script or scripts can be specified."
        ∈ prepareValidate script scripts inline elevatedUser elevatedPassword vars statErr
      ∧ "Only a script file or an inline script can be specified, not both."
        ∈ prepareValidate script scripts inline elevatedUser elevatedPassword vars statErr)
    ∧ ((¬ elevatedUser = "" ∧ elevatedPassword = "") →
      "Must supply an \x27elevated_password\x27 if \x27elevated_user\x27 provided"
        ∈ prepareValidate script scripts inline elevatedUser elevatedPassword vars statErr)
    ∧ ((elevatedUser = "" ∧ ¬ elevatedPassword = "") →
      "Must supply an \x27elevated_user\x27 if \x27elevated_password\x27 provided"
        ∈ prepareValidate script scripts inline elevatedUser elevatedPassword vars statErr)
    ∧ (¬ prepareValidate script scripts inline elevatedUser elevatedPassword vars statErr = [] →
      prepare script scripts inline elevatedUser elevatedPassword vars statErr
        = some (prepareValidate script scripts inline elevatedUser elevatedPassword vars statErr))
    ∧ (prepareValidate script scripts inline elevatedUser elevatedPassword vars statErr = [] →
      prepare script scripts inline elevatedUser elevatedPassword vars statErr = none) := by
  refine ⟨?_, ?_, ?_, ?_, ?_⟩
  · rintro ⟨hs, hlen, c, cs, hinl⟩
    subst hinl
    constructor
    · simp [prepareValidate, hs, hlen, List.mem_append]
    · simp [prepareValidate, hs, hlen, List.mem_append]
  · rintro ⟨hu, hp⟩
    simp [prepareValidate, hu, hp, List.mem_append]
  · rintro ⟨hu, hp⟩
    simp [prepareValidate, hu, hp, List.mem_append]
  · intro hne
    rw [prepare, if_neg (by simpa [List.isEmpty_iff] using hne)]
  · intro he
    rw [prepare, if_pos (by simpa [List.isEmpty_iff] using he)]

/-- Result of generateElevatedRunner together with its side effect:
uploadedTo is the remote path given to communicator.Upload (none when no
upload was attempted), result the returned invocation path or error. -/
structure ElevatedRunnerResult where
  uploadedTo : Option String
  result : Except String String

/-- Embedding of generateElevatedRunner (provisioner.go:449-483).
encode models powershellEncode of the inner command, tmpl the execution
of the elevated template into the buffer, uploadErr the communicator
upload keyed by remote path, and uuid the value of the
uuid.TimeOrderedUUID() call at line 472 that names the wrapper file.
The wrapper is uploaded under the PowerShell-syntax TEMP path of line
473 and, on success, the CMD-syntax TEMP path of line 481 — built from
the same uuid — is returned instead. -/
def generateElevatedRunner (encode : Except String String)
    (tmpl : Except String Unit) (uploadErr : String → Option String)
    (uuid : String) : ElevatedRunnerResult :=
  match encode with
  | .error e => ⟨none, .error ("Error encoding command: " ++ e)⟩
  | .ok _ =>
    match tmpl with
    | .error e => ⟨none, .error e⟩
    | .ok _ =>
      let path := "$\x7benv:TEMP\x7d\\packer-elevated-shell-" ++ uuid ++ ".ps1"
      match uploadErr path with
      | some e => ⟨some path, .error ("Error preparing elevated powershell script: " ++ e)⟩
      | none => ⟨some path, .ok ("%TEMP%\\packer-elevated-shell-" ++ uuid ++ ".ps1")⟩

/-- C8: on the success path, generateElevatedRunner uploads the wrapper
under the PowerShell-syntax TEMP path and returns the CMD-syntax TEMP
path; both are built from the same uuid — the same
packer-elevated-shell-<uuid>.ps1 tail behind the two shells' spellings
of the TEMP directory — yet they are never equal as strings. -/
theorem elevated_runner_dual_paths (encoded : String)
    (uploadErr : String → Option String) (uuid : String)
    (hupload : uploadErr ("$\x7benv:TEMP\x7d\\packer-elevated-shell-" ++ uuid ++ ".ps1") = none) :
    (generateElevatedRunner (.ok encoded) (.ok ()) uploadErr uuid).uploadedTo
      = some ("$\x7benv:TEMP\x7d\\packer-elevated-shell-" ++ uuid ++ ".ps1")
    ∧ (generateElevatedRunner (.ok encoded) (.ok ()) uploadErr uuid).result
      = .ok ("%TEMP%\\packer-elevated-shell-" ++ uuid ++ ".ps1")
    ∧ ("$\x7benv:TEMP\x7d\\packer-elevated-shell-" ++ uuid ++ ".ps1")
      = "$\x7benv:TEMP\x7d\\" ++ ("packer-elevated-shell-" ++ uuid ++ ".ps1")
    ∧ ("%TEMP%\\packer-elevated-shell-" ++ uuid ++ ".ps1")
      = "%TEMP%\\" ++ ("packer-elevated-shell-" ++ uuid ++ ".ps1")
    ∧ ¬ ("$\x7benv:TEMP\x7d\\packer-elevated-shell-" ++ uuid ++ ".ps1")
      = ("%TEMP%\\packer-elevated-shell-" ++ uuid ++ ".ps1") := by
  have hsplit1 : ("$\x7benv:TEMP\x7d\\packer-elevated-shell-" : String)
      = "$\x7benv:TEMP\x7d\\" ++ "packer-elevated-shell-" := by decide
  have hsplit2 : ("%TEMP%\\packer-elevated-shell-" : String)
      = "%TEMP%\\" ++ "packer-elevated-shell-" := by decide
  refine ⟨?_, ?_, ?_, ?_, ?_⟩
  · simp only [generateElevatedRunner, hupload]
  · simp only [generateElevatedRunner, hupload]
  · rw [hsplit1, String.append_assoc, String.append_assoc, String.append_assoc]
  · rw [hsplit2, String.append_assoc, String.append_assoc, String.append_assoc]
  · intro h
    have hlen := congrArg String.length h
    have h1 : ("$\x7benv:TEMP\x7d\\packer-elevated-shell-" : String).length = 34 := by decide
    have h2 : ("%TEMP%\\packer-elevated-shell-" : String).length = 29 := by decide
    have h3 : (".ps1" : String).length = 4 := by decide
    rw [String.length_append, String.length_append,
      String.length_append, String.length_append, h1, h2, h3] at hlen
    omega

/-- The observable outcome of the top of Provision
(provisioner.go:230-245): the errors reported to the UI sink, the final
script path list, and the result of the per-script loop over it. -/
structure ProvisionOutcome where
  uiErrors : List String
  scripts : List String
  loopResult : Nat × Option String

/-- Embedding of Provision's script-list assembly and loop entry
(provisioner.go:234-245).  extract models extractScript; on failure
extractScript returns the empty path together with its error
(provisioner.go:211-220), Provision reports the error to the UI and
still appends that path (line 240-242).  behav gives each script path
its per-script behaviour. -/
def provisionModel (configScripts : List String) (inline : Option (List String))
    (extract : Except String String) (behav : String → ScriptBehavior)
    (codes : List Int) (timeout : Nat) : ProvisionOutcome :=
  match inline with
  | none =>
    ⟨[], configScripts, runScripts codes timeout (configScripts.map behav)⟩
  | some _ =>
    match extract with
    | .ok temp =>
      ⟨[], configScripts ++ [temp],
        runScripts codes timeout ((configScripts ++ [temp]).map behav)⟩
    | .error e =>
      ⟨["Unable to extract inline scripts into a file: " ++ e], configScripts ++ [""],
        runScripts codes timeout ((configScripts ++ [""]).map behav)⟩

/-- C9: when inline-script extraction fails, Provision reports the
extraction error to the UI but does not return it: the unusable empty
path is still appended to the script list and the per-script loop still
runs over the whole list, the appended path included — the loop result
is exactly that of running the scripts, independent of the extraction
error. -/
theorem inline_extract_error_continues (configScripts : List String)
    (cmds : List String) (e : String) (behav : String → ScriptBehavior)
    (codes : List Int) (timeout : Nat) :
    (provisionModel configScripts (some cmds) (.error e) behav codes timeout).uiErrors
      = ["Unable to extract inline scripts into a file: " ++ e]
    ∧ (provisionModel configScripts (some cmds) (.error e) behav codes timeout).scripts
      = configScripts ++ [""]
    ∧ (provisionModel configScripts (some cmds) (.error e) behav codes timeout).loopResult
      = runScripts codes timeout ((configScripts ++ [""]).map behav) :=
  ⟨rfl, rfl, rfl⟩

/-- Witness for C8: with a concrete uuid and an upload that succeeds,
the wrapper is uploaded under the PowerShell-syntax TEMP path while the
CMD-syntax TEMP path with the same uuid is returned, and the two
spellings are different strings. -/
theorem elevated_runner_dual_paths_witness :
    (generateElevatedRunner (.ok ("encoded")) (.ok ()) (fun _ => none) ("f00")).uploadedTo
      = some ("$\x7benv:TEMP\x7d\\packer-elevated-shell-" ++ "f00" ++ ".ps1")
    ∧ (generateElevatedRunner (.ok ("encoded")) (.ok ()) (fun _ => none) ("f00")).result
      = .ok ("%TEMP%\\packer-elevated-shell-" ++ "f00" ++ ".ps1")
    ∧ ¬ ("$\x7benv:TEMP\x7d\\packer-elevated-shell-" ++ "f00" ++ ".ps1")
      = ("%TEMP%\\packer-elevated-shell-" ++ "f00" ++ ".ps1") := by
  have h := elevated_runner_dual_paths ("encoded") (fun _ => none) ("f00") rfl
  exact ⟨h.1, h.2.1, h.2.2.2.2⟩
